import Mathlib

/-!
Shallow embedding of the turbulence execution engine (scenario runner,
decide action runner, action runner factory, client pool) together with
proofs about its behaviour.

Conventions of the embedding:
* Python dicts that the engine treats as ordered key/value maps become
  association lists (`List (String × Val)` etc.); `{**a, k: v}` becomes
  `assocSet`, which keeps insertion order like a Python dict update.
* Python floats appearing in weights/timeouts are modelled as rationals;
  wall-clock latency measurement (`time.perf_counter`) is abstracted to 0,
  and `asyncio.sleep` delays are dropped (they have no observable effect
  on the values the engine yields).
* Network I/O performed by `_execute_action` is modelled by an oracle
  `Env.execAct`; the interpreter additionally returns the trace of actions
  it handed to that oracle, so that "no I/O happened for this step" is the
  statement that the action does not occur in the trace.
* Fallible Python code (raised exceptions) becomes `Option`/`Except`.
-/

namespace Turbulence

/-- JSON-like values stored in the workflow context. -/
inductive Val where
  | str (s : String)
  | num (n : Int)
  | bool (b : Bool)
  | null
  | obj (fields : List (String × Val))
  | arr (xs : List Val)

/-- The workflow context: one instance's mutable mapping, as an ordered
association list (Python dict semantics). -/
abbrev Ctx := List (String × Val)

/-- Update of an ordered map in Python-dict style: an existing key keeps its
position and gets the new value, a new key is appended at the end. -/
def assocSet {α : Type} (m : List (String × α)) (k : String) (v : α) :
    List (String × α) :=
  if (m.lookup k).isSome then
    m.map (fun kv => if kv.1 = k then (k, v) else kv)
  else
    m ++ [(k, v)]

/-- Context update, `{**context, k: v}` / `context[k] = v`. -/
def ctxSet (context : Ctx) (k : String) (v : Val) : Ctx :=
  assocSet context k v

/-- Embedding of `turbulence.models.observation.Observation` (the fields the
engine core reads and writes). Defaults follow the pydantic model as used by
the source: optional fields default to none/empty, `ok` has no default that
matters here since every construction site sets it. -/
structure Observation where
  ok : Bool
  protocol : Option String := none
  status_code : Option Int := none
  latency_ms : Rat := 0
  headers : List (String × String) := []
  body : Option Val := none
  action_name : String := ""
  service : Option String := none
  errors : List String := []
  branch_condition : Option String := none
  branch_result : Option Bool := none
  branch_taken : Option String := none
  condition_skipped : Bool := false

/-- Embedding of the tagged action variant of `turbulence.config.scenario`
(the module itself is not in the source tree; the constructors and their
fields follow the spec data model §3 and the uses in the sources and tests).
Every kind carries `name` and an optional `condition`. -/
inductive Action where
  | http (name : String) (service : String) (method : String) (path : String)
      (condition : Option String)
  | wait (name : String) (service : String) (path : String)
      (condition : Option String)
  | assert (name : String) (condition : Option String)
  | decide (name : String) (decision : String) (policy_ref : Option String)
      (output_var : String) (condition : Option String)
  | branch (name : String) (condition : String)
      (if_true : List Action) (if_false : List Action)
  | grpc (name : String) (service : String) (method : String)
      (condition : Option String)

/-- The `name` field shared by every action kind. -/
def Action.name : Action → String
  | .http n _ _ _ _ => n
  | .wait n _ _ _ => n
  | .assert n _ => n
  | .decide n _ _ _ _ => n
  | .branch n _ _ _ => n
  | .grpc n _ _ _ => n

/-- The optional `condition` field shared by every action kind (a branch's
condition is mandatory in the model, hence always `some`). -/
def Action.condition : Action → Option String
  | .http _ _ _ _ c => c
  | .wait _ _ _ c => c
  | .assert _ c => c
  | .decide _ _ _ _ c => c
  | .branch _ c _ _ => some c
  | .grpc _ _ _ c => c

/-- The `type` discriminator tag of the action variant. -/
def Action.type : Action → String
  | .http _ _ _ _ _ => "http"
  | .wait _ _ _ _ => "wait"
  | .assert _ _ => "assert"
  | .decide _ _ _ _ _ => "decide"
  | .branch _ _ _ _ => "branch"
  | .grpc _ _ _ _ => "grpc"

/-- Python `isinstance(action, BranchAction)`. -/
def Action.isBranch : Action → Bool
  | .branch _ _ _ _ => true
  | _ => false

/-- Python `isinstance(action, (HttpAction, WaitAction))`. -/
def Action.isHttpOrWait : Action → Bool
  | .http _ _ _ _ _ => true
  | .wait _ _ _ _ => true
  | _ => false

/-- Python truthiness of the optional condition string: `None` and the empty
string are falsy (`if ... action.condition and ...`). -/
def condTruthy : Option String → Bool
  | none => false
  | some s => !s.isEmpty

/-- The environment a scenario runner executes against: `evalCond` is the
condition evaluator back end (`ConditionEvaluator.evaluate`, with `none`
standing for an evaluation error), and `execAct` is the oracle for
`ScenarioRunner._execute_action` (network I/O, mockable). -/
structure Env where
  evalCond : String → Ctx → Option Bool
  execAct : Action → Ctx → Observation × Ctx

/-- Modelled from the spec: `ConditionEvaluator.evaluate_safe` of
`turbulence/engine/conditions.py`, which is not in the source tree. Spec
§4.3: same as `evaluate`, but any error returns `(default, rendered_or_raw)`.
Only the boolean component matters to the runner's control flow. -/
def evaluateSafe (env : Env) (condition : String) (context : Ctx)
    (default : Bool) : Bool :=
  (env.evalCond condition context).getD default

/-- The observation yielded for a condition-skipped action
(`scenario_runner.py` lines 133–144). -/
def skipObservation (action : Action) : Observation :=
  { ok := true
    status_code := none
    latency_ms := 0
    headers := []
    body := none
    action_name := action.name
    service := none
    branch_condition := action.condition
    branch_result := some false
    condition_skipped := true }

/-- The branch-decision observation (`scenario_runner.py` lines 210–221). -/
def branchObservation (name : String) (condition : String) (decision : Bool) :
    Observation :=
  { ok := true
    status_code := none
    latency_ms := 0
    headers := []
    body := none
    action_name := name
    service := none
    branch_condition := some condition
    branch_result := some decision
    branch_taken := some (if decision then "if_true" else "if_false") }

/-- Embedding of `ScenarioRunner._update_last_response`: writes the
`last_response` subobject into the context. -/
def updateLastResponse (context : Ctx) (observation : Observation) : Ctx :=
  ctxSet context "last_response" (Val.obj
    [("status_code", (observation.status_code.map Val.num).getD Val.null),
     ("headers", Val.obj (observation.headers.map fun kv => (kv.1, Val.str kv.2))),
     ("body", observation.body.getD Val.null)])

/-- One yielded tuple `(step_index, action, observation, updated_context)`. -/
abbrev Step := Nat × Action × Observation × Ctx

/-- Result of running `_execute_actions_recursive`: the yielded tuples in
order, the final context, and the trace of actions passed to
`_execute_action` (i.e. the I/O the run performed). -/
structure ExecResult where
  steps : List Step
  context : Ctx
  trace : List Action

/-- Embedding of `ScenarioRunner._execute_actions_recursive` together with
the branch handling of `ScenarioRunner._execute_branch` (inlined at the
`isinstance(action, BranchAction)` site, as the source calls it from exactly
that one place). Delay/jitter sleeps are dropped. The branch-decision tuple
carries the context returned by `_execute_branch`, which is the context after
the chosen children ran; the child tuples are forwarded unchanged with their
own indexes, which the nested call computed from `start_index=0`. -/
def execActionsRec (env : Env) (actions : List Action) (context : Ctx)
    (start_index : Nat) : ExecResult :=
  match actions with
  | [] => ⟨[], context, []⟩
  | action :: rest =>
    if condTruthy action.condition && !action.isBranch
        && !(evaluateSafe env (action.condition.getD "") context true) then
      let restR := execActionsRec env rest context (start_index + 1)
      ⟨(start_index, action, skipObservation action, context) :: restR.steps,
        restR.context, restR.trace⟩
    else
      match action with
      | Action.branch name condition if_true if_false =>
        let decision := evaluateSafe env condition context false
        let branch_actions := if decision then if_true else if_false
        let inner := execActionsRec env branch_actions context 0
        let obs := branchObservation name condition decision
        let restR := execActionsRec env rest inner.context (start_index + 1)
        ⟨(start_index, action, obs, inner.context) :: (inner.steps ++ restR.steps),
          restR.context, inner.trace ++ restR.trace⟩
      | _ =>
        let (observation, c1) := env.execAct action context
        let c2 := if action.isHttpOrWait then updateLastResponse c1 observation
                  else c1
        let restR := execActionsRec env rest c2 (start_index + 1)
        ⟨(start_index, action, observation, c2) :: restR.steps,
          restR.context, action :: restR.trace⟩
termination_by sizeOf actions
decreasing_by
  all_goals simp_wf
  split <;> omega

/-- Modelled from the spec: the stop condition of a scenario
(`turbulence/config/scenario.py` is not in the source tree). Spec §3: "a stop
condition with fields `max_steps` (default 100) and `any_action_fails`
(bool)". The repository style constrains numeric config fields to be
positive (`gt=0` throughout `config/sut.py`); `max_steps` is a `Nat` here. -/
structure StopCondition where
  max_steps : Nat := 100
  any_action_fails : Bool := false

/-- Modelled from the spec: a scenario (`turbulence/config/scenario.py` is
not in the source tree). Spec §3: identifier, description, ordered list of
actions (the flow), and a stop condition. -/
structure Scenario where
  id : String
  description : String := ""
  flow : List Action
  stop_when : StopCondition := {}

/-- The consuming loop of `ScenarioRunner.execute_flow` (lines 95–113):
yield each tuple, count it, stop when the count reaches `max_steps`, and stop
after any tuple whose observation has `ok=false` when `any_action_fails` is
configured. -/
def stopTake (max_steps : Nat) (any_action_fails : Bool) :
    Nat → List Step → List Step
  | _, [] => []
  | steps_executed, s :: rest =>
    s :: (if steps_executed + 1 ≥ max_steps then []
          else if !s.2.2.1.ok && any_action_fails then []
          else stopTake max_steps any_action_fails (steps_executed + 1) rest)

/-- Embedding of `ScenarioRunner.execute_flow`: run the recursive interpreter
over the flow from index 0 and apply the stop conditions to the yielded
stream. Inter-step delay and jitter only sleep, so they are dropped. -/
def executeFlow (env : Env) (scenario : Scenario) (context : Ctx) :
    List Step :=
  stopTake scenario.stop_when.max_steps scenario.stop_when.any_action_fails 0
    (execActionsRec env scenario.flow context 0).steps

/-- Embedding of `turbulence.actors.policy.DecisionWeights`: weighted options
for one decision point (weights as rationals; the model validates them
non-negative, which the embedding does not need to enforce for the claims). -/
structure DecisionWeights where
  options : List (String × Rat)

/-- Embedding of `turbulence.actors.policy.Policy`: a persona's decision
weights, keyed by decision point name. -/
structure Policy where
  persona_id : String
  decisions : List (String × DecisionWeights)

/-- Embedding of the `DecideAction` pydantic model as the decide runner uses
it (`turbulence/config/scenario.py` is not in the source tree; fields per
spec §3 and `tests/test_decide_action.py`). -/
structure DecideAction where
  name : String
  decision : String
  policy_ref : Option String := none
  output_var : String := "decision_result"
  condition : Option String := none

/-- An abstract model of Python's `random.Random`: a state type, a seeding
constructor, `random()` producing a unit-interval rational, and `choice`
over a list of strings. Any concrete pseudo-random generator is an instance;
the source's Mersenne Twister is one. Seeding with `none` (Python
`seed=None`) is still a fixed state here; the determinism claims are only
ever invoked with an explicit integer seed. -/
structure RngModel where
  State : Type
  init : Option Int → State
  random : State → Rat × State
  choice : State → List String → String × State

/-- Cumulative-threshold scan of `DecideActionRunner._weighted_choice`: walk
the normalized options accumulating weights and return the first option whose
cumulative weight reaches `r`. -/
def pickCumulative (r : Rat) : Rat → List (String × Rat) → Option String
  | _, [] => none
  | cumulative, (option, weight) :: rest =>
    let c := cumulative + weight
    if r ≤ c then some option else pickCumulative r c rest

/-- Embedding of `DecideActionRunner._weighted_choice`: `none` models the
`ValueError` raised on an empty options map; a non-positive total weight
falls back to `rng.choice` over the option names; otherwise the weights are
normalized and selected by cumulative threshold against `rng.random()`, with
the last option as fallback. -/
def weightedChoice (M : RngModel) (rng : M.State)
    (options : List (String × Rat)) : Option (String × M.State) :=
  if options.isEmpty then
    none
  else
    let total := (options.map Prod.snd).sum
    if total ≤ 0 then
      some (M.choice rng (options.map Prod.fst))
    else
      let normalized := options.map (fun kv => (kv.1, kv.2 / total))
      let (r, rng2) := M.random rng
      match pickCumulative r 0 normalized with
      | some option => some (option, rng2)
      | none => some (((options.map Prod.fst).getLast?).getD "", rng2)

/-- Embedding of `turbulence.actions.decide.DecideActionRunner`: the action,
the optional policy, and the runner-owned seeded generator state. -/
structure DecideActionRunner (M : RngModel) where
  action : DecideAction
  policy : Option Policy
  rng : M.State

/-- Constructor of `DecideActionRunner`: `self.rng = random.Random(seed)`. -/
def mkDecideActionRunner (M : RngModel) (action : DecideAction)
    (policy : Option Policy) (seed : Option Int) : DecideActionRunner M :=
  ⟨action, policy, M.init seed⟩

/-- The failing observation `DecideActionRunner.execute` builds when the
policy is missing or does not contain the decision (decide.py lines 90–106):
`ok=false`, one error string, and a body with a null result. Latency
measurement is abstracted to 0; the quotes around the decision name in the
source message are omitted. -/
def decideErrorObservation (action : DecideAction) (error : String) :
    Observation :=
  { ok := false
    protocol := some "decide"
    latency_ms := 0
    action_name := action.name
    errors := [error]
    body := some (Val.obj
      [("decision", Val.str action.decision), ("result", Val.null)]) }

/-- Embedding of `DecideActionRunner.execute`. Returns `none` for the
propagated `ValueError` of `_weighted_choice` (empty options), otherwise the
observation, the updated context, and the runner with its advanced generator
state. Latency measurement is abstracted to 0. -/
def DecideActionRunner.execute {M : RngModel} (r : DecideActionRunner M)
    (context : Ctx) : Option (Observation × Ctx × DecideActionRunner M) :=
  let decision_name := r.action.decision
  let output_var := r.action.output_var
  match r.policy with
  | none =>
    some (decideErrorObservation r.action
      "No policy provided for decide action", context, r)
  | some policy =>
    match policy.decisions.lookup decision_name with
    | none =>
      some (decideErrorObservation r.action
        ("Decision " ++ decision_name ++ " not found in policy"), context, r)
    | some weights =>
      match weightedChoice M r.rng weights.options with
      | none => none
      | some (choice, rng2) =>
        let updated_context := ctxSet context output_var (Val.str choice)
        some ({ ok := true
                protocol := some "decide"
                latency_ms := 0
                action_name := r.action.name
                body := some (Val.obj
                  [("decision", Val.str decision_name),
                   ("result", Val.str choice),
                   ("options", Val.obj (weights.options.map
                     fun kv => (kv.1, Val.num kv.2.num)))]) },
              updated_context, { r with rng := rng2 })

/-- Iterate `DecideActionRunner.execute` like repeated steps of one run: the
runner state (its generator) is threaded through, and the sequence of chosen
options written to the context output variable is collected. An execution
that raises (empty options) or fails (missing policy/decision) contributes
`none`. -/
def decideRunSequence {M : RngModel} (r : DecideActionRunner M)
    (context : Ctx) : Nat → List (Option String)
  | 0 => []
  | n + 1 =>
    match r.execute context with
    | none => none :: decideRunSequence r context n
    | some (observation, c2, r2) =>
      (if observation.ok then
        match (c2.lookup r.action.output_var) with
        | some (Val.str s) => some s
        | _ => none
      else none) :: decideRunSequence r2 context n

/-- Tags for the runner classes the factory can instantiate, in the order
`turbulence/actions/__init__.py` registers them. -/
inductive RunnerClass where
  | httpRunner
  | waitRunner
  | assertRunner
  | grpcRunner
  | decideRunner
deriving DecidableEq, Repr

/-- Embedding of the registry built by the `ActionRunnerFactory.register`
calls in `turbulence/actions/__init__.py` lines 12–16. -/
def registeredRunners : List (String × RunnerClass) :=
  [("http", RunnerClass.httpRunner),
   ("wait", RunnerClass.waitRunner),
   ("assert", RunnerClass.assertRunner),
   ("grpc", RunnerClass.grpcRunner),
   ("decide", RunnerClass.decideRunner)]

/-- Embedding of `ActionRunnerFactory.create` (`factory.py` lines 33–84):
look the action type tag up in the registry; a miss raises
`ValueError("No runner registered for action type: ...")`. The constructor
introspection only chooses which dependencies to pass and is dropped. -/
def ActionRunnerFactory.create (action : Action) : Except String RunnerClass :=
  match registeredRunners.lookup action.type with
  | some runner_class => Except.ok runner_class
  | none => Except.error ("No runner registered for action type: " ++ action.type)

/-- Template rendering of every string field of an action, the effect of
`action.model_dump()` followed by `template_engine.render_dict` and model
reconstruction: each string leaf is rendered (nested branch children
included), `None` leaves stay untouched. The template engine itself is
abstracted as the oracle `render`. -/
def renderFields (render : String → Ctx → String) (context : Ctx) :
    Action → Action
  | .http n s m p c =>
    .http (render n context) (render s context) (render m context)
      (render p context) (c.map (render · context))
  | .wait n s p c =>
    .wait (render n context) (render s context) (render p context)
      (c.map (render · context))
  | .assert n c =>
    .assert (render n context) (c.map (render · context))
  | .decide n d pr ov c =>
    .decide (render n context) (render d context) (pr.map (render · context))
      (render ov context) (c.map (render · context))
  | .branch n cond if_true if_false =>
    .branch (render n context) (render cond context)
      (if_true.attach.map (fun a => renderFields render context a.1))
      (if_false.attach.map (fun a => renderFields render context a.1))
  | .grpc n s m c =>
    .grpc (render n context) (render s context) (render m context)
      (c.map (render · context))
termination_by a => sizeOf a
decreasing_by
  all_goals simp_wf
  · have := List.sizeOf_lt_of_mem a.2; omega
  · have := List.sizeOf_lt_of_mem a.2; omega

/-- Embedding of `ScenarioRunner._render_action` (lines 310–338): render the
dumped action and reconstruct it by an isinstance chain over `HttpAction`,
`WaitAction`, `AssertAction`, `BranchAction`, `DecideAction`; any other class
raises `ValueError("Unknown action type for rendering: ...")`. -/
def renderAction (render : String → Ctx → String) (action : Action)
    (context : Ctx) : Except String Action :=
  match action with
  | .http _ _ _ _ _ => Except.ok (renderFields render context action)
  | .wait _ _ _ _ => Except.ok (renderFields render context action)
  | .assert _ _ => Except.ok (renderFields render context action)
  | .branch _ _ _ _ => Except.ok (renderFields render context action)
  | .decide _ _ _ _ _ => Except.ok (renderFields render context action)
  | .grpc _ _ _ _ =>
    Except.error ("Unknown action type for rendering: " ++ action.type)

/-- Embedding of the decide-policy resolution in `ScenarioRunner._execute_action`
(lines 272–280): a truthy `policy_ref` that is a key of the policies map
selects that policy; otherwise, when any policies are configured, the first
policy in the map is used; otherwise no policy is passed to the runner. -/
def resolveDecidePolicy (policies : List (String × Policy))
    (policy_ref : Option String) : Option Policy :=
  if condTruthy policy_ref && (policies.lookup (policy_ref.getD "")).isSome then
    policies.lookup (policy_ref.getD "")
  else if !policies.isEmpty then
    (policies.head?).map Prod.snd
  else
    none

/-- The decide path of `ScenarioRunner._execute_action` composed with the
runner: resolve the policy per `resolveDecidePolicy`, build the
`DecideActionRunner` with the run seed, and execute it on the context. -/
def decideStep (M : RngModel) (policies : List (String × Policy))
    (seed : Option Int) (action : DecideAction) (context : Ctx) :
    Option (Observation × Ctx × DecideActionRunner M) :=
  (mkDecideActionRunner M action
    (resolveDecidePolicy policies action.policy_ref) seed).execute context

/-- Embedding of `turbulence.config.sut.HttpServiceConfig`. -/
structure HttpServiceConfig where
  base_url : String
  headers : List (String × String) := []
  timeout_seconds : Rat := 30

/-- Embedding of `turbulence.config.sut.GrpcServiceConfig`. -/
structure GrpcServiceConfig where
  host : String
  port : Nat
  use_tls : Bool := false
  timeout_seconds : Rat := 30

/-- Embedding of `turbulence.config.sut.Service`: protocol tag plus the
protocol-specific blocks (the kafka block is never read by the engine core
and is omitted). -/
structure Service where
  protocol : String := "http"
  http : Option HttpServiceConfig := none
  grpc : Option GrpcServiceConfig := none

/-- The `Service.timeout_seconds` backward-compatibility property
(`sut.py` lines 213–222): the http block wins, then grpc, then 30.0. -/
def Service.timeout_seconds (s : Service) : Rat :=
  match s.http with
  | some h => h.timeout_seconds
  | none =>
    match s.grpc with
    | some g => g.timeout_seconds
    | none => 30

/-- Embedding of `turbulence.config.sut.SUTConfig` (the fields the engine
reads; profiles are applied at load time and out of scope). -/
structure SUTConfig where
  name : String
  default_headers : List (String × String) := []
  services : List (String × Service)

/-- Embedding of `SUTConfig.get_service`: `none` models the `KeyError` for an
unknown service name. -/
def SUTConfig.get_service (c : SUTConfig) (service_name : String) :
    Option Service :=
  c.services.lookup service_name

/-- Embedding of `SUTConfig.get_headers_for_service` (lines 357–370): merge
the global default headers with the http block's headers (`{**default,
**service}`); `none` models the `KeyError` from `get_service`. -/
def SUTConfig.get_headers_for_service (c : SUTConfig) (service_name : String) :
    Option (List (String × String)) :=
  match c.get_service service_name with
  | none => none
  | some service =>
    let service_headers :=
      if service.protocol = "http" then
        match service.http with
        | some h => h.headers
        | none => []
      else []
    some (service_headers.foldl (fun acc kv => assocSet acc kv.1 kv.2)
      c.default_headers)

/-- The observable configuration of an `httpx.AsyncClient` as the pool
constructs it. The pool passes only `base_url` and `timeout` to the
constructor; `headers` records the default headers handed over at
construction (httpx's built-in defaults are abstracted away as the empty
list). -/
structure HttpClient where
  base_url : String
  timeout : Rat
  headers : List (String × String) := []

/-- The mutable state of a `ClientPool`: the per-service map of HTTP clients
(the gRPC channel map is analogous and not needed by the claims). -/
structure ClientPoolState where
  http_clients : List (String × HttpClient) := []

/-- Embedding of `ClientPool.get_http_client` (`client_pool.py` lines 33–67):
return the pooled client when one exists for the service name; otherwise look
the service up (`none` models the `KeyError`), compute the base URL (the http
block's URL when present — this also covers the legacy `service.base_url`
property branch, whose `AttributeError` fallback leaves the URL empty), and
construct the client with that base URL and the service timeout. No headers
argument is passed to the constructor. The new client is stored in the pool
under the service name. -/
def ClientPool.get_http_client (sut_config : SUTConfig)
    (pool : ClientPoolState) (service_name : String) :
    Option (HttpClient × ClientPoolState) :=
  match pool.http_clients.lookup service_name with
  | some client => some (client, pool)
  | none =>
    match sut_config.get_service service_name with
    | none => none
    | some service =>
      let base_url :=
        match service.http with
        | some h => h.base_url
        | none => ""
      let client : HttpClient :=
        { base_url := base_url, timeout := service.timeout_seconds }
      some (client, ⟨assocSet pool.http_clients service_name client⟩)

/-- The `step_index` component of a yielded tuple. -/
def stepIdx (s : Step) : Nat := s.1

/-- The observation component of a yielded tuple. -/
def stepObs (s : Step) : Observation := s.2.2.1

/-- The context component of a yielded tuple. -/
def stepCtx (s : Step) : Ctx := s.2.2.2

/-- Whether a flow contains no branch action at its top level (a non-branch
action has no nested actions, so this is all of them). -/
def branchFree : List Action → Bool
  | [] => true
  | a :: rest => !a.isBranch && branchFree rest

/-- The execution shape the spec prescribes for a condition-skipped action:
one tuple with the skip observation and the unchanged context, then the rest
of the list from the next index, with no I/O for the skipped step. -/
def skipExpected (env : Env) (action : Action) (rest : List Action)
    (context : Ctx) (idx : Nat) : ExecResult :=
  let restR := execActionsRec env rest context (idx + 1)
  ⟨(idx, action, skipObservation action, context) :: restR.steps,
    restR.context, restR.trace⟩

/-- The execution shape the spec prescribes for a branch action (§4.12 step
3): exactly one branch-decision tuple, then exactly the tuples of the chosen
child list (run from the current context, nothing from the non-chosen list),
then the rest of the flow from the context the children produced; the I/O
trace is the chosen children's followed by the rest's. -/
def branchExpected (env : Env) (name condition : String)
    (if_true if_false rest : List Action) (context : Ctx) (idx : Nat) :
    ExecResult :=
  let decision := evaluateSafe env condition context false
  let inner := execActionsRec env (if decision then if_true else if_false)
    context 0
  let restR := execActionsRec env rest inner.context (idx + 1)
  ⟨(idx, Action.branch name condition if_true if_false,
      branchObservation name condition decision, inner.context)
      :: (inner.steps ++ restR.steps),
    restR.context, inner.trace ++ restR.trace⟩

/-- The execution shape of a regular (non-branch, non-skipped) action: one
tuple from the `_execute_action` oracle (with `last_response` folded into the
context for http/wait), the action itself on the I/O trace, then the rest of
the list from the next index. -/
def execExpected (env : Env) (action : Action) (rest : List Action)
    (context : Ctx) (idx : Nat) : ExecResult :=
  let observation := (env.execAct action context).1
  let c1 := (env.execAct action context).2
  let c2 := if action.isHttpOrWait then updateLastResponse c1 observation
            else c1
  let restR := execActionsRec env rest c2 (idx + 1)
  ⟨(idx, action, observation, c2) :: restR.steps, restR.context,
    action :: restR.trace⟩

/-- A demonstration environment: every condition evaluates to true, every
executed action succeeds and leaves the context unchanged. -/
def demoEnv : Env where
  evalCond := fun _ _ => some true
  execAct := fun action context =>
    ({ ok := true, action_name := action.name }, context)

/-- An environment whose executed actions all fail (`ok=false`). -/
def failEnv : Env where
  evalCond := fun _ _ => some true
  execAct := fun action context =>
    ({ ok := false, action_name := action.name }, context)

/-- An environment where every condition evaluates to false. -/
def falseCondEnv : Env where
  evalCond := fun _ _ => some false
  execAct := fun action context =>
    ({ ok := true, action_name := action.name }, context)

/-- An environment where every condition evaluation errors (the template or
the sandbox raises), modelled by `none`. -/
def errCondEnv : Env where
  evalCond := fun _ _ => none
  execAct := fun action context =>
    ({ ok := true, action_name := action.name }, context)

/-- A one-branch flow followed by a second action: the shape on which the
nested index numbering is visible. -/
def nestedIdxFlow : List Action :=
  [Action.branch "b1" "true" [Action.http "h1" "api" "GET" "/" none] [],
   Action.http "h2" "api" "GET" "/" none]

/-- Scenario wrapping `nestedIdxFlow` with the default stop condition. -/
def nestedIdxScenario : Scenario := { id := "nested", flow := nestedIdxFlow }

/-- A two-step plain HTTP scenario that stops on any failure. -/
def failScenario : Scenario :=
  { id := "fails"
    flow := [Action.http "h1" "api" "GET" "/" none,
             Action.http "h2" "api" "GET" "/" none]
    stop_when := { any_action_fails := true } }

/-- An HTTP action guarded by a (truthy) condition string. -/
def guardedHttp : Action := Action.http "g1" "api" "GET" "/" (some "flag")

/-- A branch action with one child on each side, guarded by a condition
string that the error environment fails to evaluate. -/
def guardedBranch : Action :=
  Action.branch "gb" "flag"
    [Action.http "t1" "api" "GET" "/" none]
    [Action.http "f1" "api" "GET" "/" none]

/-- A small concrete linear-congruential generator, one instance of
`RngModel` used to run the decide engine on concrete inputs. -/
def lcgNext (s : Nat) : Nat := (s * 1103515245 + 12345) % 2147483648

/-- The `RngModel` instance built on `lcgNext`. -/
def lcgModel : RngModel where
  State := Nat
  init := fun seed => (seed.getD 0).natAbs % 2147483648
  random := fun s => ((lcgNext s : Rat) / 2147483648, lcgNext s)
  choice := fun s l => (l.getD (lcgNext s % l.length) "", lcgNext s)

/-- The browse policy of the spec determinism scenario (§8 scenario 5):
weights `{a: 0.5, b: 0.3, c: 0.2}`. -/
def browsePolicy : Policy :=
  { persona_id := "tester"
    decisions := [("browse", ⟨[("a", 1/2), ("b", 3/10), ("c", 1/5)]⟩)] }

/-- A decide action on the `browse` decision point. -/
def browseAction : DecideAction := { name := "what_next", decision := "browse" }

/-- A policy with an empty decisions map (legal per the model). -/
def emptyDecisionsPolicy : Policy := { persona_id := "p", decisions := [] }

/-- An HTTP service with service-level headers and a 5 second timeout. -/
def headersSutService : Service :=
  { protocol := "http"
    http := some { base_url := "http://localhost:8080"
                   headers := [("X-Svc", "2")]
                   timeout_seconds := 5 } }

/-- A SUT with one HTTP service carrying both global and service headers. -/
def headersSut : SUTConfig :=
  { name := "test-system"
    default_headers := [("X-Global", "1")]
    services := [("api", headersSutService)] }

/-- The client the pool constructs for `headersSut`'s `api` service. -/
def headersSutClient : HttpClient :=
  { base_url := "http://localhost:8080", timeout := 5, headers := [] }

/-- Unfolding of the interpreter on the empty action list. -/
theorem execActionsRec_nil (env : Env) (context : Ctx) (idx : Nat) :
    execActionsRec env [] context idx = ⟨[], context, []⟩ := by
  simp [execActionsRec]

/-- Unfolding of the interpreter on a condition-skipped head action. -/
theorem execActionsRec_cons_skip (env : Env) (action : Action)
    (rest : List Action) (context : Ctx) (idx : Nat)
    (hb : action.isBranch = false)
    (hc : condTruthy action.condition = true)
    (he : evaluateSafe env (action.condition.getD "") context true = false) :
    execActionsRec env (action :: rest) context idx =
      skipExpected env action rest context idx := by
  cases action <;>
    simp_all [execActionsRec, skipExpected, Action.isBranch, Action.condition]

/-- Unfolding of the interpreter on a branch head action. -/
theorem execActionsRec_cons_branch (env : Env) (name condition : String)
    (if_true if_false rest : List Action) (context : Ctx) (idx : Nat) :
    execActionsRec env
        (Action.branch name condition if_true if_false :: rest) context idx =
      branchExpected env name condition if_true if_false rest context idx := by
  simp [execActionsRec, branchExpected, Action.isBranch, Action.condition,
    condTruthy]

/-- Unfolding of the interpreter on a non-branch head action whose condition
check does not skip it (condition absent/empty, or evaluating to true, or
erroring — `evaluate_safe` defaults to true). -/
theorem execActionsRec_cons_exec (env : Env) (action : Action)
    (rest : List Action) (context : Ctx) (idx : Nat)
    (hb : action.isBranch = false)
    (hguard : condTruthy action.condition = false ∨
      evaluateSafe env (action.condition.getD "") context true = true) :
    execActionsRec env (action :: rest) context idx =
      execExpected env action rest context idx := by
  rcases hguard with h | h <;>
    cases action <;>
      simp_all [execActionsRec, execExpected, Action.isBranch]

/-- For a branch-free flow, the interpreter emits one tuple per action and
numbers them consecutively from the start index. -/
theorem branchFree_steps_indexes (env : Env) :
    ∀ (actions : List Action) (context : Ctx) (idx : Nat),
      branchFree actions = true →
      (execActionsRec env actions context idx).steps.map stepIdx =
        List.range' idx actions.length := by
  intro actions
  induction actions with
  | nil => intro context idx _; simp [execActionsRec_nil]
  | cons a rest ih =>
    intro context idx h
    simp only [branchFree, Bool.and_eq_true, Bool.not_eq_true'] at h
    obtain ⟨hb, hrest⟩ := h
    by_cases hskip : condTruthy a.condition = true ∧
        evaluateSafe env (a.condition.getD "") context true = false
    · rw [execActionsRec_cons_skip env a rest context idx hb hskip.1 hskip.2]
      simp [skipExpected, stepIdx, ih _ _ hrest, List.range'_succ]
    · have hguard : condTruthy a.condition = false ∨
          evaluateSafe env (a.condition.getD "") context true = true := by
        by_cases h1 : condTruthy a.condition = true
        · by_cases h2 : evaluateSafe env (a.condition.getD "") context true = true
          · exact Or.inr h2
          · simp only [Bool.not_eq_true] at h2
            exact absurd ⟨h1, h2⟩ hskip
        · simp only [Bool.not_eq_true] at h1
          exact Or.inl h1
      rw [execActionsRec_cons_exec env a rest context idx hb hguard]
      simp [execExpected, stepIdx, ih _ _ hrest, List.range'_succ]

/-- The stop loop keeps consecutive numbering: if the input tuples are
numbered `idx, idx+1, …` then so is the kept prefix. -/
theorem stopTake_map_range (m : Nat) (f : Bool) :
    ∀ (l : List Step) (idx n : Nat),
      l.map stepIdx = List.range' idx l.length →
      (stopTake m f n l).map stepIdx =
        List.range' idx (stopTake m f n l).length := by
  intro l
  induction l with
  | nil => intro idx n _; simp [stopTake]
  | cons s rest ih =>
    intro idx n h
    simp only [List.map_cons, List.length_cons, List.range'_succ,
      List.cons.injEq] at h
    obtain ⟨hs, hrest⟩ := h
    simp only [stopTake]
    by_cases h1 : n + 1 ≥ m
    · simp [h1, hs, List.range'_succ]
    · by_cases h2 : (!(stepObs s).ok && f) = true
      · simp only [stepObs] at h2
        simp [h1, h2, hs, List.range'_succ]
      · simp only [stepObs] at h2
        simp only [h1, if_false, if_neg h2, List.map_cons, List.length_cons,
          List.range'_succ, hs, List.cons.injEq, true_and]
        exact ih (idx + 1) (n + 1) hrest

/-- The stop loop never keeps more than `m − n` tuples once `n` of `m` are
already counted. -/
theorem stopTake_length_le (m : Nat) (f : Bool) :
    ∀ (l : List Step) (n : Nat), n < m →
      (stopTake m f n l).length ≤ m - n := by
  intro l
  induction l with
  | nil => intro n _; simp [stopTake]
  | cons s rest ih =>
    intro n hn
    simp only [stopTake]
    by_cases h1 : n + 1 ≥ m
    · simp [h1]; omega
    · by_cases h2 : (!(stepObs s).ok && f) = true
      · simp only [stepObs] at h2
        simp [h1, h2]; omega
      · simp only [stepObs] at h2
        simp only [h1, if_false, if_neg h2, List.length_cons]
        have := ih (n + 1) (by omega)
        omega

/-- With `any_action_fails` configured, a kept tuple whose observation is not
ok is the last kept tuple. -/
theorem stopTake_fail_is_last (m : Nat) :
    ∀ (l : List Step) (n : Nat) (pre : List Step) (s : Step) (post : List Step),
      stopTake m true n l = pre ++ s :: post → (stepObs s).ok = false →
      post = [] := by
  intro l
  induction l with
  | nil =>
    intro n pre s post heq _
    simp only [stopTake] at heq
    cases pre <;> simp at heq
  | cons a rest ih =>
    intro n pre s post heq hok
    simp only [stepObs] at hok
    simp only [stopTake] at heq
    cases pre with
    | nil =>
      rw [List.nil_append] at heq
      injection heq with ha htail
      subst ha
      by_cases h1 : n + 1 ≥ m
      · rw [if_pos h1] at htail; exact htail.symm
      · rw [if_neg h1] at htail
        rw [if_pos (by simp [hok])] at htail
        exact htail.symm
    | cons p pre2 =>
      rw [List.cons_append] at heq
      injection heq with hp htail
      by_cases h1 : n + 1 ≥ m
      · rw [if_pos h1] at htail
        simp at htail
      · rw [if_neg h1] at htail
        by_cases h2 : (!a.2.2.1.ok && true) = true
        · rw [if_pos h2] at htail
          simp at htail
        · rw [if_neg h2] at htail
          exact ih (n + 1) pre2 s post htail (by simp [stepObs, hok])

/-- The first failing step of `failScenario` under `failEnv`, with the
`last_response` that `_update_last_response` writes for an HTTP action. -/
def failStep : Step :=
  (0, Action.http "h1" "api" "GET" "/" none,
   { ok := false, action_name := "h1" },
   [("last_response", Val.obj
      [("status_code", Val.null), ("headers", Val.obj []), ("body", Val.null)])])

/-- C1 counterexample: the claim that `execute_flow` step indexes are
`0, 1, 2, …` strictly increasing, including branch sub-flow tuples, is false.
For a flow of a branch (taken, with one child) followed by one action, the
yielded indexes are `[0, 0, 1]`: the nested call restarts numbering at 0 and
the outer index advances only once for the whole branch. -/
theorem step_index_repeats_under_branch :
    ((executeFlow demoEnv nestedIdxScenario []).map stepIdx) = [0, 0, 1] ∧
    ¬ List.Chain' (· < ·)
      ((executeFlow demoEnv nestedIdxScenario []).map stepIdx) ∧
    ((executeFlow demoEnv nestedIdxScenario []).map stepIdx) ≠
      List.range (executeFlow demoEnv nestedIdxScenario []).length := by
  have h : ((executeFlow demoEnv nestedIdxScenario []).map stepIdx) = [0, 0, 1] := by
    simp [executeFlow, execActionsRec, nestedIdxScenario, nestedIdxFlow,
      demoEnv, condTruthy, evaluateSafe, stopTake, Action.condition,
      Action.isBranch, Action.isHttpOrWait, Action.name, updateLastResponse,
      ctxSet, assocSet, stepIdx]
  have hlen : (executeFlow demoEnv nestedIdxScenario []).length = 3 := by
    have := congrArg List.length h
    simpa using this
  refine ⟨h, ?_, ?_⟩
  · rw [h]
    intro hch
    rw [List.chain'_cons] at hch
    exact absurd hch.1 (lt_irrefl 0)
  · rw [h, hlen]
    decide

/-- C1 (amended): for every flow containing no branch action, the tuples
yielded by `execute_flow` carry step indexes `0, 1, 2, …` without gaps (one
per yielded tuple, strictly increasing); with a branch in the flow the child
tuples restart at index 0 and indexes can repeat. -/
theorem step_index_gapless_of_branchFree (env : Env) (scenario : Scenario)
    (context : Ctx) (h : branchFree scenario.flow = true) :
    (executeFlow env scenario context).map stepIdx =
      List.range (executeFlow env scenario context).length := by
  have h1 := branchFree_steps_indexes env scenario.flow context 0 h
  have hlen : (execActionsRec env scenario.flow context 0).steps.length =
      scenario.flow.length := by
    have := congrArg List.length h1
    simpa using this
  rw [executeFlow, List.range_eq_range']
  exact stopTake_map_range scenario.stop_when.max_steps
    scenario.stop_when.any_action_fails
    (execActionsRec env scenario.flow context 0).steps 0 0 (by rw [h1, hlen])

/-- Witness for the amended C1 theorem on a concrete branch-free scenario. -/
theorem step_index_gapless_witness :
    (executeFlow demoEnv failScenario []).map stepIdx =
      List.range (executeFlow demoEnv failScenario []).length :=
  step_index_gapless_of_branchFree demoEnv failScenario [] rfl

/-- C2: a branch action emits exactly one branch-decision tuple (with
`branch_result` the evaluated condition and `branch_taken` the matching
label), followed by exactly the tuples of the chosen child list run from the
current context; the non-chosen list contributes no tuple and no I/O, and
the context produced by the children is the one the rest of the flow runs
from. -/
theorem branch_emits_decision_then_chosen_subflow (env : Env)
    (name condition : String) (if_true if_false rest : List Action)
    (context : Ctx) (idx : Nat) :
    execActionsRec env
        (Action.branch name condition if_true if_false :: rest) context idx =
      branchExpected env name condition if_true if_false rest context idx
    ∧ (branchObservation name condition
        (evaluateSafe env condition context false)).branch_result =
      some (evaluateSafe env condition context false)
    ∧ (branchObservation name condition
        (evaluateSafe env condition context false)).branch_taken =
      some (if evaluateSafe env condition context false then "if_true"
            else "if_false") :=
  ⟨execActionsRec_cons_branch env name condition if_true if_false rest
    context idx, rfl, rfl⟩

/-- C3: a non-branch action whose (present, nonempty) condition evaluates to
false is skipped: exactly one tuple is yielded for it, with the skip
observation (`ok=true`, `condition_skipped=true`, `latency_ms=0`) and the
unchanged context, and no action is passed to the I/O oracle for that step
(the trace is exactly the remaining flow's trace). -/
theorem skipped_action_emits_single_skip_tuple (env : Env) (action : Action)
    (rest : List Action) (context : Ctx) (idx : Nat)
    (hb : action.isBranch = false)
    (hc : condTruthy action.condition = true)
    (he : evaluateSafe env (action.condition.getD "") context true = false) :
    execActionsRec env (action :: rest) context idx =
      skipExpected env action rest context idx
    ∧ (skipObservation action).ok = true
    ∧ (skipObservation action).condition_skipped = true
    ∧ (skipObservation action).latency_ms = 0 :=
  ⟨execActionsRec_cons_skip env action rest context idx hb hc he,
    rfl, rfl, rfl⟩

/-- Witness for the C3 theorem on a concrete guarded HTTP action whose
condition evaluates to false. -/
theorem skipped_action_witness :
    execActionsRec falseCondEnv [guardedHttp] [] 0 =
      skipExpected falseCondEnv guardedHttp [] [] 0
    ∧ (skipObservation guardedHttp).ok = true
    ∧ (skipObservation guardedHttp).condition_skipped = true
    ∧ (skipObservation guardedHttp).latency_ms = 0 :=
  skipped_action_emits_single_skip_tuple falseCondEnv guardedHttp [] [] 0
    rfl rfl rfl

/-- C4: `execute_flow` yields at most `max_steps` tuples (when at least one
step is allowed; the model's `StopCondition` default is 100), and when
`any_action_fails` is set, a yielded tuple whose observation has `ok=false`
is the last one yielded. -/
theorem execute_flow_respects_stop_conditions (env : Env)
    (scenario : Scenario) (context : Ctx) :
    (1 ≤ scenario.stop_when.max_steps →
      (executeFlow env scenario context).length ≤
        scenario.stop_when.max_steps)
    ∧ (scenario.stop_when.any_action_fails = true →
      ∀ (pre : List Step) (s : Step) (post : List Step),
        executeFlow env scenario context = pre ++ s :: post →
        (stepObs s).ok = false → post = []) := by
  constructor
  · intro h
    have := stopTake_length_le scenario.stop_when.max_steps
      scenario.stop_when.any_action_fails
      (execActionsRec env scenario.flow context 0).steps 0 (by omega)
    simpa [executeFlow] using this
  · intro hf pre s post heq hok
    rw [executeFlow, hf] at heq
    exact stopTake_fail_is_last scenario.stop_when.max_steps
      (execActionsRec env scenario.flow context 0).steps 0 pre s post heq hok

/-- Witness for the C4 theorem: a two-step scenario with
`any_action_fails=true` under a failing environment yields exactly its first
(failing) step and respects the default bound. -/
theorem execute_flow_stop_witness :
    (executeFlow failEnv failScenario []).length ≤ 100 ∧
    executeFlow failEnv failScenario [] = [] ++ failStep :: [] ∧
    ([] : List Step) = [] := by
  have heq : executeFlow failEnv failScenario [] = [] ++ failStep :: [] := by
    simp [executeFlow, execActionsRec, failScenario, failEnv, failStep,
      condTruthy, evaluateSafe, stopTake, Action.condition, Action.isBranch,
      Action.isHttpOrWait, Action.name, updateLastResponse, ctxSet, assocSet]
  refine ⟨?_, heq, ?_⟩
  · exact (execute_flow_respects_stop_conditions failEnv failScenario []).1
      (by decide)
  · exact (execute_flow_respects_stop_conditions failEnv failScenario []).2
      rfl [] failStep [] heq rfl

/-- C5: condition evaluation errors fall back to the `evaluate_safe`
defaults: an erroring condition on a regular (non-branch) action leaves the
action executed, not skipped (default true), while an erroring branch
condition takes the `if_false` branch (default false). -/
theorem condition_error_runs_action_and_takes_false_branch (env : Env)
    (context : Ctx) :
    (∀ (action : Action) (rest : List Action) (idx : Nat),
      action.isBranch = false →
      env.evalCond (action.condition.getD "") context = none →
      execActionsRec env (action :: rest) context idx =
        execExpected env action rest context idx)
    ∧ (∀ (name condition : String) (if_true if_false rest : List Action)
        (idx : Nat),
      env.evalCond condition context = none →
      execActionsRec env
          (Action.branch name condition if_true if_false :: rest) context idx =
        branchExpected env name condition if_true if_false rest context idx
      ∧ evaluateSafe env condition context false = false) := by
  constructor
  · intro action rest idx hb he
    exact execActionsRec_cons_exec env action rest context idx hb
      (Or.inr (by simp [evaluateSafe, he]))
  · intro name condition if_true if_false rest idx he
    exact ⟨execActionsRec_cons_branch env name condition if_true if_false
      rest context idx, by simp [evaluateSafe, he]⟩

/-- Witness for the C5 theorem in the all-conditions-error environment: the
guarded HTTP action executes and the guarded branch takes its false side. -/
theorem condition_error_witness :
    (execActionsRec errCondEnv [guardedHttp] [] 0 =
      execExpected errCondEnv guardedHttp [] [] 0)
    ∧ (execActionsRec errCondEnv [guardedBranch] [] 0 =
        branchExpected errCondEnv "gb" "flag"
          [Action.http "t1" "api" "GET" "/" none]
          [Action.http "f1" "api" "GET" "/" none] [] [] 0
      ∧ evaluateSafe errCondEnv "flag" [] false = false) :=
  ⟨(condition_error_runs_action_and_takes_false_branch errCondEnv []).1
      guardedHttp [] 0 rfl rfl,
    (condition_error_runs_action_and_takes_false_branch errCondEnv []).2
      "gb" "flag" [Action.http "t1" "api" "GET" "/" none]
      [Action.http "f1" "api" "GET" "/" none] [] 0 rfl⟩

/-- C6: a decide runner with no policy, or whose policy lacks the requested
decision name, returns a failing observation with a descriptive error, the
input context unchanged, and the runner state untouched. -/
theorem decide_missing_policy_fails_unchanged (M : RngModel)
    (r : DecideActionRunner M) (context : Ctx)
    (h : r.policy = none ∨
      ∃ p, r.policy = some p ∧ p.decisions.lookup r.action.decision = none) :
    ∃ obs : Observation, r.execute context = some (obs, context, r)
      ∧ obs.ok = false ∧ obs.errors ≠ [] := by
  rcases h with h | ⟨p, hp, hd⟩
  · simp only [DecideActionRunner.execute, h]
    exact ⟨_, rfl, rfl, by simp [decideErrorObservation]⟩
  · simp only [DecideActionRunner.execute, hp, hd]
    exact ⟨_, rfl, rfl, by simp [decideErrorObservation]⟩

/-- Witness for the C6 theorem: a runner constructed without a policy. -/
theorem decide_missing_policy_witness :
    ∃ obs : Observation,
      (mkDecideActionRunner lcgModel browseAction none (some 42)).execute [] =
        some (obs, [],
          mkDecideActionRunner lcgModel browseAction none (some 42))
      ∧ obs.ok = false ∧ obs.errors ≠ [] :=
  decide_missing_policy_fails_unchanged lcgModel
    (mkDecideActionRunner lcgModel browseAction none (some 42)) []
    (Or.inl rfl)

/-- C7: two decide runners built from the same seed and policy, iterated the
same number of times on the same context, produce identical sequences of
chosen options. -/
theorem decide_same_seed_same_choices (M : RngModel) (action : DecideAction)
    (policy : Option Policy) (s : Int) (n : Nat) (context : Ctx)
    (r1 r2 : DecideActionRunner M)
    (h1 : r1 = mkDecideActionRunner M action policy (some s))
    (h2 : r2 = mkDecideActionRunner M action policy (some s)) :
    decideRunSequence r1 context n = decideRunSequence r2 context n := by
  rw [h1, h2]

/-- Witness for the C7 theorem at the spec scenario inputs: the browse
policy, seed 12345, ten iterations. -/
theorem decide_same_seed_witness :
    decideRunSequence (mkDecideActionRunner lcgModel browseAction
        (some browsePolicy) (some 12345)) [] 10 =
      decideRunSequence (mkDecideActionRunner lcgModel browseAction
        (some browsePolicy) (some 12345)) [] 10 :=
  decide_same_seed_same_choices lcgModel browseAction (some browsePolicy)
    12345 10 []
    (mkDecideActionRunner lcgModel browseAction (some browsePolicy)
      (some 12345))
    (mkDecideActionRunner lcgModel browseAction (some browsePolicy)
      (some 12345)) rfl rfl

/-- When the `policy_ref` is absent (falsy) or misses the policies map, the
resolved policy is the first configured one (and `none` when the map is
empty). -/
theorem resolveDecidePolicy_eq_head (policies : List (String × Policy))
    (policy_ref : Option String)
    (h : condTruthy policy_ref = false ∨
      policies.lookup (policy_ref.getD "") = none) :
    resolveDecidePolicy policies policy_ref =
      (policies.head?).map Prod.snd := by
  have hcond : (condTruthy policy_ref &&
      (policies.lookup (policy_ref.getD "")).isSome) = false := by
    rcases h with h | h <;> simp [h]
  unfold resolveDecidePolicy
  rw [hcond]
  cases policies <;> simp

/-- C10 counterexample: the claim that a failing decide observation arises
only when no policies are configured is false. With one configured policy
whose decisions map lacks the requested decision name, the decide step fails
although the policies map is nonempty. -/
theorem decide_fails_with_configured_policy :
    ((decideStep lcgModel [("p", emptyDecisionsPolicy)] (some 1) browseAction
        []).map (fun t => t.1.ok)) = some false
    ∧ ((decideStep lcgModel [("p", emptyDecisionsPolicy)] (some 1)
        browseAction []).map (fun t => t.1.errors)) =
      some ["Decision browse not found in policy"]
    ∧ ([("p", emptyDecisionsPolicy)] : List (String × Policy)) ≠ [] := by
  refine ⟨rfl, rfl, by simp⟩

/-- C10 (amended): when `policy_ref` is absent or not a key of the policies
map, the first configured policy is silently supplied to the decide runner;
the decide step fails with the no-policy error only when no policies are
configured, and it also fails when the supplied first policy lacks the
decision name. -/
theorem decide_policy_fallback (M : RngModel)
    (policies : List (String × Policy)) (seed : Option Int)
    (action : DecideAction) (context : Ctx)
    (h : condTruthy action.policy_ref = false ∨
      policies.lookup (action.policy_ref.getD "") = none) :
    (resolveDecidePolicy policies action.policy_ref =
      (policies.head?).map Prod.snd)
    ∧ (policies = [] →
      decideStep M policies seed action context =
        some (decideErrorObservation action
          "No policy provided for decide action", context,
          mkDecideActionRunner M action none seed))
    ∧ (∀ k p, policies.head? = some (k, p) →
        p.decisions.lookup action.decision = none →
        decideStep M policies seed action context =
          some (decideErrorObservation action
            ("Decision " ++ action.decision ++ " not found in policy"),
            context, mkDecideActionRunner M action (some p) seed))
    ∧ (∀ k p w, policies.head? = some (k, p) →
        p.decisions.lookup action.decision = some w →
        ∀ obs c2 r2,
          decideStep M policies seed action context = some (obs, c2, r2) →
          obs.ok = true) := by
  have hres := resolveDecidePolicy_eq_head policies action.policy_ref h
  refine ⟨hres, ?_, ?_, ?_⟩
  · intro hempty
    subst hempty
    have hres2 : resolveDecidePolicy [] action.policy_ref = none := by
      rw [hres]; rfl
    simp [decideStep, hres2, mkDecideActionRunner,
      DecideActionRunner.execute]
  · intro k p hhead hd
    have hres2 : resolveDecidePolicy policies action.policy_ref = some p := by
      rw [hres, hhead]; rfl
    simp [decideStep, hres2, mkDecideActionRunner,
      DecideActionRunner.execute, hd]
  · intro k p w hhead hw obs c2 r2 hstep
    have hres2 : resolveDecidePolicy policies action.policy_ref = some p := by
      rw [hres, hhead]; rfl
    simp only [decideStep, hres2, mkDecideActionRunner,
      DecideActionRunner.execute, hw] at hstep
    rcases hchoice : weightedChoice M (M.init seed) w.options with _ | ⟨c, rng2⟩
    · rw [hchoice] at hstep; simp at hstep
    · rw [hchoice] at hstep
      simp only [Option.some.injEq] at hstep
      have hobs := congrArg (fun t => t.1.ok) hstep
      simpa using hobs.symm

/-- Witness for the amended C10 theorem: one configured policy without the
requested decision — the fallback supplies it and the step fails with the
decision-not-found error. -/
theorem decide_policy_fallback_witness :
    (resolveDecidePolicy [("p", emptyDecisionsPolicy)]
        browseAction.policy_ref =
      (([("p", emptyDecisionsPolicy)] : List (String × Policy)).head?).map
        Prod.snd)
    ∧ decideStep lcgModel [("p", emptyDecisionsPolicy)] (some 7) browseAction
        [] =
      some (decideErrorObservation browseAction
        ("Decision " ++ browseAction.decision ++ " not found in policy"),
        [], mkDecideActionRunner lcgModel browseAction
          (some emptyDecisionsPolicy) (some 7)) :=
  ⟨(decide_policy_fallback lcgModel [("p", emptyDecisionsPolicy)] (some 7)
      browseAction [] (Or.inl rfl)).1,
    (decide_policy_fallback lcgModel [("p", emptyDecisionsPolicy)] (some 7)
      browseAction [] (Or.inl rfl)).2.2.1 "p" emptyDecisionsPolicy rfl rfl⟩

/-- Rendering never changes an action's kind: the reconstruction uses the
same model class as the input. -/
theorem renderFields_type (render : String → Ctx → String) (context : Ctx)
    (action : Action) :
    (renderFields render context action).type = action.type := by
  cases action <;> simp [renderFields, Action.type]

/-- Keys written by `assocSet` are found again with the written value. -/
theorem lookup_assocSet_self {α : Type} (m : List (String × α)) (k : String)
    (v : α) : (assocSet m k v).lookup k = some v := by
  unfold assocSet
  by_cases h : (m.lookup k).isSome
  · rw [if_pos h]
    induction m with
    | nil => simp at h
    | cons kv rest ih =>
      rcases kv with ⟨k1, v1⟩
      by_cases hk : k1 = k
      · simp only [List.map_cons]
        rw [if_pos hk]
        subst hk
        simp [List.lookup]
      · simp only [List.map_cons]
        rw [if_neg hk]
        have hk2 : (k == k1) = false := by
          simp only [beq_eq_false_iff_ne, ne_eq]
          exact fun he => hk he.symm
        simp only [List.lookup, hk2] at h ⊢
        exact ih h
  · rw [if_neg h]
    induction m with
    | nil => simp [List.lookup]
    | cons kv rest ih =>
      rcases kv with ⟨k1, v1⟩
      have hk2 : (k == k1) = false := by
        by_cases hk : (k == k1) = true
        · exfalso; apply h; simp [List.lookup, hk]
        · simpa using hk
      simp only [List.lookup, hk2, List.cons_append] at h ⊢
      apply ih
      intro habs
      apply h
      simpa [List.lookup, hk2] using habs

/-- C8 counterexample: the claim that every supported kind (including grpc
and branch) passes render-then-dispatch is false. A grpc action reaches the
rendering error branch, and the factory has no registration for kind branch. -/
theorem grpc_render_fails_branch_unregistered :
    renderAction (fun s _ => s) (Action.grpc "g" "user-service" "Svc/M" none)
        [] =
      Except.error "Unknown action type for rendering: grpc"
    ∧ ActionRunnerFactory.create (Action.branch "b" "cond" [] []) =
      Except.error "No runner registered for action type: branch" :=
  ⟨rfl, rfl⟩

/-- C8 (amended): `_render_action` succeeds with an action of the same kind
for the five kinds it handles (http, wait, assert, decide, branch), and the
factory produces a runner for the five registered kinds (http, wait, assert,
grpc, decide). -/
theorem render_and_factory_cover_kinds (render : String → Ctx → String)
    (context : Ctx) :
    (∀ action : Action, action.type ≠ "grpc" →
      renderAction render action context =
        Except.ok (renderFields render context action)
      ∧ (renderFields render context action).type = action.type)
    ∧ (∀ action : Action, action.type ≠ "branch" →
      ActionRunnerFactory.create action =
        Except.ok ((registeredRunners.lookup action.type).getD
          RunnerClass.httpRunner)) := by
  constructor
  · intro action h
    cases action with
    | grpc n s m c => exact absurd rfl h
    | http n s m p c => exact ⟨rfl, renderFields_type render context _⟩
    | wait n s p c => exact ⟨rfl, renderFields_type render context _⟩
    | assert n c => exact ⟨rfl, renderFields_type render context _⟩
    | decide n d pr ov c => exact ⟨rfl, renderFields_type render context _⟩
    | branch n c t f => exact ⟨rfl, renderFields_type render context _⟩
  · intro action h
    cases action with
    | branch n c t f => exact absurd rfl h
    | http n s m p c => rfl
    | wait n s p c => rfl
    | assert n c => rfl
    | decide n d pr ov c => rfl
    | grpc n s m c => rfl

/-- Witness for the amended C8 theorem: a concrete http action renders with
its kind preserved, and the factory instantiates the grpc runner. -/
theorem render_and_factory_witness :
    (renderAction (fun s _ => s) (Action.http "h" "api" "GET" "/" none) [] =
      Except.ok (renderFields (fun s _ => s) []
        (Action.http "h" "api" "GET" "/" none))
    ∧ (renderFields (fun s _ => s) []
        (Action.http "h" "api" "GET" "/" none)).type =
      (Action.http "h" "api" "GET" "/" none).type)
    ∧ ActionRunnerFactory.create (Action.grpc "g" "svc" "Svc/M" none) =
      Except.ok ((registeredRunners.lookup
        (Action.grpc "g" "svc" "Svc/M" none).type).getD
          RunnerClass.httpRunner) :=
  ⟨(render_and_factory_cover_kinds (fun s _ => s) []).1
      (Action.http "h" "api" "GET" "/" none) (by decide),
    (render_and_factory_cover_kinds (fun s _ => s) []).2
      (Action.grpc "g" "svc" "Svc/M" none) (by decide)⟩

/-- C9 counterexample: the claim that the first call constructs the client
with the merged global+service default headers is false. For a SUT with both
global and service headers, the constructed client carries no headers while
`get_headers_for_service` returns the merged map. -/
theorem http_client_misses_default_headers :
    ClientPool.get_http_client headersSut ⟨[]⟩ "api" =
      some (headersSutClient, ⟨[("api", headersSutClient)]⟩)
    ∧ headersSut.get_headers_for_service "api" =
      some [("X-Global", "1"), ("X-Svc", "2")]
    ∧ headersSutClient.headers = []
    ∧ some headersSutClient.headers ≠
      headersSut.get_headers_for_service "api" := by
  have hmerge : headersSut.get_headers_for_service "api" =
      some [("X-Global", "1"), ("X-Svc", "2")] := rfl
  refine ⟨rfl, hmerge, rfl, ?_⟩
  rw [hmerge]
  intro habs
  have := Option.some.inj habs
  simp [headersSutClient] at this

/-- C9 (amended): the first call for a service constructs the client with
the service's base URL (the http block's, empty otherwise) and the service
timeout, passing no headers; the client is stored under the service name and
a second call returns the same client with the pool unchanged. -/
theorem http_client_constructed_once_and_pooled (sut : SUTConfig)
    (pool : ClientPoolState) (service_name : String) (service : Service)
    (hmiss : pool.http_clients.lookup service_name = none)
    (hsvc : sut.get_service service_name = some service) :
    ∃ client pool2,
      ClientPool.get_http_client sut pool service_name = some (client, pool2)
      ∧ client.base_url = (match service.http with
          | some h => h.base_url
          | none => "")
      ∧ client.timeout = service.timeout_seconds
      ∧ client.headers = []
      ∧ ClientPool.get_http_client sut pool2 service_name =
          some (client, pool2) := by
  refine ⟨{ base_url := (match service.http with
              | some h => h.base_url
              | none => ""),
            timeout := service.timeout_seconds },
    ⟨assocSet pool.http_clients service_name
      { base_url := (match service.http with
          | some h => h.base_url
          | none => ""),
        timeout := service.timeout_seconds }⟩, ?_, rfl, rfl, rfl, ?_⟩
  · simp only [ClientPool.get_http_client, hmiss, hsvc]
  · simp only [ClientPool.get_http_client, lookup_assocSet_self]

/-- Witness for the amended C9 theorem at the concrete SUT: the api client
is built from the http block and pooled. -/
theorem http_client_pool_witness :
    ∃ client pool2,
      ClientPool.get_http_client headersSut ⟨[]⟩ "api" = some (client, pool2)
      ∧ client.base_url = (match headersSutService.http with
          | some h => h.base_url
          | none => "")
      ∧ client.timeout = headersSutService.timeout_seconds
      ∧ client.headers = []
      ∧ ClientPool.get_http_client headersSut pool2 "api" =
          some (client, pool2) :=
  http_client_constructed_once_and_pooled headersSut ⟨[]⟩ "api"
    headersSutService rfl rfl

end Turbulence
